import Mathlib

/-!
# Verification of the `EncryptedDuelGame` contract (ZeroTrustArena)

Shallow embedding of `src/contracts/EncryptedDuelGame.sol`.

Modelling choices:

* An `euint32` ciphertext handle is modelled by `EU32`: its plaintext value
  (a natural number kept below `2^32` by every constructor) together with the
  access-control grants recorded for that handle (`allowedThis` for
  `FHE.allowThis`, `allowedTo` for `FHE.allow(value, account)`).  Each FHE
  operation produces a fresh handle carrying no grants, as in FHEVM, where a
  derived ciphertext is a new handle whose ACL starts empty.
* An `ebool` is only ever used transiently inside `_resolveRound` and never
  granted, so it is modelled by its plaintext `Bool`.
* Addresses are natural numbers with `0` playing the role of `address(0)`.
* Contract storage is a `ContractState` record threaded explicitly; a
  reverting call is an `Except.error`, which leaves the pre-state untouched,
  matching Solidity revert semantics.
* `msg.sender` is a parameter of every entry point.
-/

namespace ZeroTrustArena

/-- `2^32`, the modulus of `euint32` arithmetic. -/
def U32MOD : Nat := 4294967296

/-- Addresses; `0` stands for `address(0)`. -/
abbrev Address := Nat

/-- An `euint32` ciphertext handle: plaintext value plus the ACL grants
recorded for this handle (`allowedThis` ↔ `FHE.allowThis`,
`allowedTo` ↔ the accounts passed to `FHE.allow`). -/
structure EU32 where
  val : Nat
  allowedThis : Bool
  allowedTo : List Address
deriving Repr, DecidableEq

namespace FHE

/-- `FHE.asEuint32` on a plaintext constant: fresh handle, no grants. -/
def asEuint32 (n : Nat) : EU32 := ⟨n % U32MOD, false, []⟩

/-- `FHE.fromExternal(handle, proof)`: import of an externally encrypted
value (the proof check is external; a valid import carries the submitted
plaintext).  Fresh handle, no grants. -/
def fromExternal (n : Nat) : EU32 := ⟨n % U32MOD, false, []⟩

/-- Homomorphic wrapping addition on `euint32`. -/
def add (a b : EU32) : EU32 := ⟨(a.val + b.val) % U32MOD, false, []⟩

/-- Homomorphic wrapping subtraction on `euint32`. -/
def sub (a b : EU32) : EU32 := ⟨(a.val + (U32MOD - b.val % U32MOD)) % U32MOD, false, []⟩

/-- Homomorphic minimum. -/
def min (a b : EU32) : EU32 := ⟨Nat.min a.val b.val, false, []⟩

/-- `FHE.gt a b`, i.e. the (transient) encrypted boolean `a > b`. -/
def gt (a b : EU32) : Bool := decide (b.val < a.val)

/-- `FHE.select cond ifTrue ifFalse`: a fresh handle holding one of the two
branch values (grants do not carry over from either branch). -/
def select (c : Bool) (a b : EU32) : EU32 := ⟨if c then a.val else b.val, false, []⟩

/-- `FHE.allowThis`: grant the computation environment (the contract) access
to the handle. -/
def allowThis (a : EU32) : EU32 := { a with allowedThis := true }

/-- `FHE.allow(value, account)`: grant `account` decrypt access. -/
def allow (a : EU32) (acct : Address) : EU32 := { a with allowedTo := acct :: a.allowedTo }

end FHE

/-- The contract's private helper `_allowTo` (grants only to nonzero
accounts). -/
def allowTo (a : EU32) (acct : Address) : EU32 :=
  if acct ≠ 0 then FHE.allow a acct else a

/-- The `Game` storage struct.  Defaults are Solidity storage defaults (an
unallocated mapping slot). -/
structure Game where
  creator : Address := 0
  opponent : Address := 0
  started : Bool := false
  round : Nat := 0
  creatorBalance : EU32 := ⟨0, false, []⟩
  opponentBalance : EU32 := ⟨0, false, []⟩
  creatorScore : EU32 := ⟨0, false, []⟩
  opponentScore : EU32 := ⟨0, false, []⟩
  creatorStake : EU32 := ⟨0, false, []⟩
  opponentStake : EU32 := ⟨0, false, []⟩
  creatorSubmitted : Bool := false
  opponentSubmitted : Bool := false
deriving Repr, DecidableEq

/-- The unallocated game record (`games[id]` before any write). -/
def Game.empty : Game := {}

/-- Contract storage: `nextGameId`, the `games` mapping and the
`gamesByPlayer` mapping. -/
structure ContractState where
  nextGameId : Nat
  games : Nat → Game
  gamesByPlayer : Address → List Nat

/-- Storage of a freshly deployed contract. -/
def initialState : ContractState := ⟨0, fun _ => Game.empty, fun _ => []⟩

/-- Revert reasons, one per `require` string of the contract.
`gameNotFound` ↔ "Game not found" (spec: `NotFound`);
`notParticipant` ↔ "Not a participant" (spec: `NotParticipant`);
`alreadyHasOpponent` ↔ "Game already has opponent" (spec: `AlreadyFull`);
`creatorCannotJoin` ↔ "Creator cannot join own game" (spec: `SelfJoin`);
`alreadyStarted` ↔ "Game already started" (spec: `AlreadyStarted`);
`waitingForOpponent` ↔ "Waiting for opponent" (spec: `NoOpponent`);
`gameNotStarted` ↔ "Game not started" (spec: `NotStarted`);
`alreadySubmitted` ↔ "Already submitted" (spec: `DuplicateSubmission`). -/
inductive Err where
  | gameNotFound
  | notParticipant
  | alreadyHasOpponent
  | creatorCannotJoin
  | alreadyStarted
  | waitingForOpponent
  | gameNotStarted
  | alreadySubmitted
deriving Repr, DecidableEq

/-- `createGame()`: allocates the next id, stores `creator := msg.sender`,
`round := 1`, and pushes the id onto the caller's game list.  Returns the
new state and the allocated `gameId`. -/
def createGame (sender : Address) (s : ContractState) : ContractState × Nat :=
  let gameId := s.nextGameId
  let g : Game := { Game.empty with creator := sender, round := 1 }
  (⟨gameId + 1,
    fun i => if i = gameId then g else s.games i,
    fun p => if p = sender then s.gamesByPlayer p ++ [gameId] else s.gamesByPlayer p⟩,
   gameId)

/-- `joinGame(gameId)`: requires the game to exist, to have no opponent yet,
and the caller not to be the creator; then sets the opponent and appends the
id to the caller's game list. -/
def joinGame (sender : Address) (gameId : Nat) (s : ContractState) :
    Except Err ContractState :=
  let g := s.games gameId
  if g.creator = 0 then .error .gameNotFound
  else if g.opponent ≠ 0 then .error .alreadyHasOpponent
  else if g.creator = sender then .error .creatorCannotJoin
  else
    .ok ⟨s.nextGameId,
      fun i => if i = gameId then { g with opponent := sender } else s.games i,
      fun p => if p = sender then s.gamesByPlayer p ++ [gameId] else s.gamesByPlayer p⟩

/-- `startGame(gameId)`: requires existence, participation, not yet started
and an opponent present; then sets `started`, initializes balances to
encrypted 100 and scores and stakes to encrypted 0, calls `FHE.allowThis` on
the four balance/score handles (`_shareWithContract`), and grants decrypt
access: each balance to its owner, both scores to both players.
The stake handles receive no grants, exactly as in the source. -/
def startGame (sender : Address) (gameId : Nat) (s : ContractState) :
    Except Err ContractState :=
  let g := s.games gameId
  if g.creator = 0 then .error .gameNotFound
  else if ¬ (sender = g.creator ∨ sender = g.opponent) then .error .notParticipant
  else if g.started then .error .alreadyStarted
  else if g.opponent = 0 then .error .waitingForOpponent
  else
    let cb := FHE.asEuint32 100
    let ob := FHE.asEuint32 100
    let cs := FHE.asEuint32 0
    let os := FHE.asEuint32 0
    let cb := FHE.allowThis cb
    let ob := FHE.allowThis ob
    let cs := FHE.allowThis cs
    let os := FHE.allowThis os
    let cb := allowTo cb g.creator
    let ob := allowTo ob g.opponent
    let cs := allowTo (allowTo cs g.creator) g.opponent
    let os := allowTo (allowTo os g.creator) g.opponent
    let g2 : Game :=
      { g with
        started := true
        creatorBalance := cb
        opponentBalance := ob
        creatorScore := cs
        opponentScore := os
        creatorStake := FHE.asEuint32 0
        opponentStake := FHE.asEuint32 0
        creatorSubmitted := false
        opponentSubmitted := false }
    .ok ⟨s.nextGameId,
      fun i => if i = gameId then g2 else s.games i,
      s.gamesByPlayer⟩

/-- The effective creator stake of `_resolveRound`:
`FHE.min(game.creatorStake, game.creatorBalance)`, at plaintext level. -/
def effectiveCreatorStake (g : Game) : Nat :=
  Nat.min g.creatorStake.val g.creatorBalance.val

/-- The effective opponent stake of `_resolveRound`:
`FHE.min(game.opponentStake, game.opponentBalance)`, at plaintext level. -/
def effectiveOpponentStake (g : Game) : Nat :=
  Nat.min g.opponentStake.val g.opponentBalance.val

/-- `_resolveRound`: clamp both stakes with `FHE.min`, compute the two win
booleans with `FHE.gt`, update balances and scores through the select
chains, call `FHE.allowThis` on the four new handles, re-grant decrypt
access (balances to their owners, scores to both players), reset the stakes
to ungranted encrypted 0, clear both submitted flags and advance `round`. -/
def resolveRound (g : Game) : Game :=
  let creatorStake := FHE.min g.creatorStake g.creatorBalance
  let opponentStake := FHE.min g.opponentStake g.opponentBalance
  let creatorWins := FHE.gt creatorStake opponentStake
  let opponentWins := FHE.gt opponentStake creatorStake
  let cb := FHE.select creatorWins
    (FHE.add g.creatorBalance opponentStake)
    (FHE.select opponentWins (FHE.sub g.creatorBalance creatorStake) g.creatorBalance)
  let ob := FHE.select opponentWins
    (FHE.add g.opponentBalance creatorStake)
    (FHE.select creatorWins (FHE.sub g.opponentBalance opponentStake) g.opponentBalance)
  let cs := FHE.select creatorWins
    (FHE.add g.creatorScore (FHE.asEuint32 1)) g.creatorScore
  let os := FHE.select opponentWins
    (FHE.add g.opponentScore (FHE.asEuint32 1)) g.opponentScore
  let cb := FHE.allowThis cb
  let ob := FHE.allowThis ob
  let cs := FHE.allowThis cs
  let os := FHE.allowThis os
  let cb := allowTo cb g.creator
  let ob := allowTo ob g.opponent
  let cs := allowTo (allowTo cs g.creator) g.opponent
  let os := allowTo (allowTo os g.creator) g.opponent
  { g with
    creatorBalance := cb
    opponentBalance := ob
    creatorScore := cs
    opponentScore := os
    creatorStake := FHE.asEuint32 0
    opponentStake := FHE.asEuint32 0
    creatorSubmitted := false
    opponentSubmitted := false
    round := g.round + 1 }

/-- `submitStake(gameId, stakeHandle, inputProof)`: requires existence,
participation and `started`; imports the stake (`FHE.fromExternal`), grants
it `allowThis` and decrypt access to the submitter; rejects a duplicate
submission for the caller's side; stores the stake, sets the flag, and runs
`_resolveRound` when both flags are now set. -/
def submitStake (sender : Address) (gameId : Nat) (stakeVal : Nat)
    (s : ContractState) : Except Err ContractState :=
  let g := s.games gameId
  if g.creator = 0 then .error .gameNotFound
  else if ¬ (sender = g.creator ∨ sender = g.opponent) then .error .notParticipant
  else if ¬ g.started then .error .gameNotStarted
  else
    let enc := allowTo (FHE.allowThis (FHE.fromExternal stakeVal)) sender
    if sender = g.creator then
      if g.creatorSubmitted then .error .alreadySubmitted
      else
        let g2 := { g with creatorStake := enc, creatorSubmitted := true }
        let g3 := if g2.creatorSubmitted && g2.opponentSubmitted then resolveRound g2 else g2
        .ok ⟨s.nextGameId,
          fun i => if i = gameId then g3 else s.games i,
          s.gamesByPlayer⟩
    else
      if g.opponentSubmitted then .error .alreadySubmitted
      else
        let g2 := { g with opponentStake := enc, opponentSubmitted := true }
        let g3 := if g2.creatorSubmitted && g2.opponentSubmitted then resolveRound g2 else g2
        .ok ⟨s.nextGameId,
          fun i => if i = gameId then g3 else s.games i,
          s.gamesByPlayer⟩

/-- `getOpenGames()`: the ids `0 ≤ i < nextGameId` whose game has a creator
and no opponent, in ascending order (the source's count-then-fill loop
writes exactly these ids in increasing `i`). -/
def getOpenGames (s : ContractState) : List Nat :=
  (List.range s.nextGameId).filter
    (fun i => decide ((s.games i).creator ≠ 0 ∧ (s.games i).opponent = 0))

/-- `getPlayerGames(player)`. -/
def getPlayerGames (s : ContractState) (player : Address) : List Nat :=
  s.gamesByPlayer player

/-- One successful state-changing call of the contract; `msg.sender` is
never `address(0)` on chain, hence the `sender ≠ 0` premises. -/
inductive Step : ContractState → ContractState → Prop where
  | create (sender : Address) (s : ContractState) (hs : sender ≠ 0) :
      Step s (createGame sender s).1
  | join (sender : Address) (gameId : Nat) (s s2 : ContractState)
      (hs : sender ≠ 0) (h : joinGame sender gameId s = .ok s2) : Step s s2
  | start (sender : Address) (gameId : Nat) (s s2 : ContractState)
      (hs : sender ≠ 0) (h : startGame sender gameId s = .ok s2) : Step s s2
  | submit (sender : Address) (gameId : Nat) (stakeVal : Nat) (s s2 : ContractState)
      (hs : sender ≠ 0) (h : submitStake sender gameId stakeVal s = .ok s2) : Step s s2

/-- The states reachable from a fresh deployment by any sequence of
successful calls. -/
def Reachable (s : ContractState) : Prop :=
  Relation.ReflTransGen Step initialState s

/-- Extract the post-state of a successful call (used only to name concrete
scenario states; the accompanying equations show each call did succeed). -/
def exOk (e : Except Err ContractState) (d : ContractState) : ContractState :=
  match e with
  | .ok s => s
  | .error _ => d

/-- Scenario state: alice (address 1) has created game 0. -/
def sCreated : ContractState := (createGame 1 initialState).1

/-- Scenario state: bob (address 2) has joined game 0. -/
def sJoined : ContractState := exOk (joinGame 2 0 sCreated) sCreated

/-- Scenario state: alice has started game 0. -/
def sStarted : ContractState := exOk (startGame 1 0 sJoined) sJoined

/-- Scenario state: alice has submitted stake 25. -/
def sAliceStaked : ContractState := exOk (submitStake 1 0 25 sStarted) sStarted

/-- Scenario state: bob has submitted stake 10, which settled round 1. -/
def sSettled : ContractState := exOk (submitStake 2 0 10 sAliceStaked) sAliceStaked

/-- A concrete started game with both stakes submitted (creator 25 versus
opponent 10 on fresh balances of 100), as `_resolveRound` sees it. -/
def gScenario : Game :=
  { creator := 1, opponent := 2, started := true, round := 1,
    creatorBalance := ⟨100, true, [1]⟩, opponentBalance := ⟨100, true, [2]⟩,
    creatorScore := ⟨0, true, [2, 1]⟩, opponentScore := ⟨0, true, [2, 1]⟩,
    creatorStake := ⟨25, true, [1]⟩, opponentStake := ⟨10, true, [2]⟩,
    creatorSubmitted := true, opponentSubmitted := true }

/-- A concrete game in which the opponent staked far more than their
balance (5000 against a balance of 100). -/
def gOverstake : Game :=
  { creator := 1, opponent := 2, started := true, round := 1,
    creatorBalance := ⟨100, true, [1]⟩, opponentBalance := ⟨100, true, [2]⟩,
    creatorScore := ⟨0, true, [2, 1]⟩, opponentScore := ⟨0, true, [2, 1]⟩,
    creatorStake := ⟨30, true, [1]⟩, opponentStake := ⟨5000, true, [2]⟩,
    creatorSubmitted := true, opponentSubmitted := true }

/-- A concrete game with two identical stakes of 15. -/
def gTie : Game :=
  { creator := 1, opponent := 2, started := true, round := 1,
    creatorBalance := ⟨100, true, [1]⟩, opponentBalance := ⟨100, true, [2]⟩,
    creatorScore := ⟨0, true, [2, 1]⟩, opponentScore := ⟨0, true, [2, 1]⟩,
    creatorStake := ⟨15, true, [1]⟩, opponentStake := ⟨15, true, [2]⟩,
    creatorSubmitted := true, opponentSubmitted := true }

/-- Invariant maintained by every successful call, established at
deployment.  It packages everything the claims need about reachable
states. -/
structure Inv (s : ContractState) : Prop where
  alloc : ∀ id, (s.games id).creator ≠ 0 ↔ id < s.nextGameId
  oppNeCreator : ∀ id, (s.games id).opponent ≠ 0 →
    (s.games id).opponent ≠ (s.games id).creator
  startedCreator : ∀ id, (s.games id).started = true → (s.games id).creator ≠ 0
  startedOpponent : ∀ id, (s.games id).started = true → (s.games id).opponent ≠ 0
  balSum : ∀ id, (s.games id).started = true →
    (s.games id).creatorBalance.val + (s.games id).opponentBalance.val = 200
  grantsCB : ∀ id, (s.games id).started = true →
    (s.games id).creatorBalance.allowedThis = true ∧
    (s.games id).creator ∈ (s.games id).creatorBalance.allowedTo
  grantsOB : ∀ id, (s.games id).started = true →
    (s.games id).opponentBalance.allowedThis = true ∧
    (s.games id).opponent ∈ (s.games id).opponentBalance.allowedTo
  grantsCS : ∀ id, (s.games id).started = true →
    (s.games id).creatorScore.allowedThis = true ∧
    (s.games id).creator ∈ (s.games id).creatorScore.allowedTo ∧
    (s.games id).opponent ∈ (s.games id).creatorScore.allowedTo
  grantsOS : ∀ id, (s.games id).started = true →
    (s.games id).opponentScore.allowedThis = true ∧
    (s.games id).creator ∈ (s.games id).opponentScore.allowedTo ∧
    (s.games id).opponent ∈ (s.games id).opponentScore.allowedTo
  stakeC : ∀ id, (s.games id).creatorSubmitted = true →
    (s.games id).creatorStake.allowedThis = true ∧
    (s.games id).creator ∈ (s.games id).creatorStake.allowedTo
  stakeO : ∀ id, (s.games id).opponentSubmitted = true →
    (s.games id).opponentStake.allowedThis = true ∧
    (s.games id).opponent ∈ (s.games id).opponentStake.allowedTo
  subCStarted : ∀ id, (s.games id).creatorSubmitted = true → (s.games id).started = true
  subOStarted : ∀ id, (s.games id).opponentSubmitted = true → (s.games id).started = true
  lists : ∀ p id, id ∈ s.gamesByPlayer p →
    p ≠ 0 ∧ id < s.nextGameId ∧
    ((s.games id).creator = p ∨ (s.games id).opponent = p)
  listsNodup : ∀ p, (s.gamesByPlayer p).Nodup

section ScenarioFacts

theorem sCreated_ok : Step initialState sCreated :=
  Step.create 1 initialState (by decide)

theorem sJoined_ok : joinGame 2 0 sCreated = .ok sJoined := by rfl

theorem sStarted_ok : startGame 1 0 sJoined = .ok sStarted := by rfl

theorem sAliceStaked_ok : submitStake 1 0 25 sStarted = .ok sAliceStaked := by rfl

theorem sSettled_ok : submitStake 2 0 10 sAliceStaked = .ok sSettled := by rfl

theorem reach_sCreated : Reachable sCreated :=
  Relation.ReflTransGen.single sCreated_ok

theorem reach_sJoined : Reachable sJoined :=
  Relation.ReflTransGen.tail reach_sCreated (Step.join 2 0 _ _ (by decide) sJoined_ok)

theorem reach_sStarted : Reachable sStarted :=
  Relation.ReflTransGen.tail reach_sJoined (Step.start 1 0 _ _ (by decide) sStarted_ok)

theorem reach_sAliceStaked : Reachable sAliceStaked :=
  Relation.ReflTransGen.tail reach_sStarted (Step.submit 1 0 25 _ _ (by decide) sAliceStaked_ok)

theorem reach_sSettled : Reachable sSettled :=
  Relation.ReflTransGen.tail reach_sAliceStaked (Step.submit 2 0 10 _ _ (by decide) sSettled_ok)

end ScenarioFacts

/-! ## Projection lemmas for the ciphertext operations -/

@[simp] theorem allowThis_val (a : EU32) : (FHE.allowThis a).val = a.val := rfl

@[simp] theorem allow_val (a : EU32) (x : Address) : (FHE.allow a x).val = a.val := rfl

@[simp] theorem allowTo_val (a : EU32) (x : Address) : (allowTo a x).val = a.val := by
  unfold allowTo; split <;> rfl

@[simp] theorem add_val (a b : EU32) : (FHE.add a b).val = (a.val + b.val) % U32MOD := rfl

@[simp] theorem sub_val (a b : EU32) :
    (FHE.sub a b).val = (a.val + (U32MOD - b.val % U32MOD)) % U32MOD := rfl

@[simp] theorem min_val (a b : EU32) : (FHE.min a b).val = Nat.min a.val b.val := rfl

@[simp] theorem select_val (c : Bool) (a b : EU32) :
    (FHE.select c a b).val = if c then a.val else b.val := rfl

@[simp] theorem asEuint32_val (n : Nat) : (FHE.asEuint32 n).val = n % U32MOD := rfl

@[simp] theorem gt_eq (a b : EU32) : FHE.gt a b = decide (b.val < a.val) := rfl

@[simp] theorem allowThis_allowedThis (a : EU32) : (FHE.allowThis a).allowedThis = true := rfl

@[simp] theorem allow_allowedThis (a : EU32) (x : Address) :
    (FHE.allow a x).allowedThis = a.allowedThis := rfl

@[simp] theorem allowTo_allowedThis (a : EU32) (x : Address) :
    (allowTo a x).allowedThis = a.allowedThis := by
  unfold allowTo; split <;> rfl

theorem mem_allowTo_self (a : EU32) (x : Address) (hx : x ≠ 0) :
    x ∈ (allowTo a x).allowedTo := by
  unfold allowTo
  rw [if_pos hx]
  exact List.mem_cons_self x a.allowedTo

theorem mem_allowTo_of_mem (a : EU32) (x y : Address) (h : y ∈ a.allowedTo) :
    y ∈ (allowTo a x).allowedTo := by
  unfold allowTo
  split
  · exact List.mem_cons_of_mem x h
  · exact h

/-! ## Characterization of `_resolveRound` at plaintext level -/

theorem resolveRound_creator (g : Game) : (resolveRound g).creator = g.creator := rfl

theorem resolveRound_opponent (g : Game) : (resolveRound g).opponent = g.opponent := rfl

theorem resolveRound_started (g : Game) : (resolveRound g).started = g.started := rfl

theorem resolveRound_round (g : Game) : (resolveRound g).round = g.round + 1 := rfl

theorem resolveRound_creatorSubmitted (g : Game) :
    (resolveRound g).creatorSubmitted = false := rfl

theorem resolveRound_opponentSubmitted (g : Game) :
    (resolveRound g).opponentSubmitted = false := rfl

theorem resolveRound_creatorStake (g : Game) :
    (resolveRound g).creatorStake = FHE.asEuint32 0 := rfl

theorem resolveRound_opponentStake (g : Game) :
    (resolveRound g).opponentStake = FHE.asEuint32 0 := rfl

theorem resolveRound_creatorBalance_val (g : Game) :
    (resolveRound g).creatorBalance.val =
      if effectiveOpponentStake g < effectiveCreatorStake g then
        (g.creatorBalance.val + effectiveOpponentStake g) % U32MOD
      else if effectiveCreatorStake g < effectiveOpponentStake g then
        (g.creatorBalance.val + (U32MOD - effectiveCreatorStake g % U32MOD)) % U32MOD
      else g.creatorBalance.val := by
  unfold resolveRound effectiveCreatorStake effectiveOpponentStake
  by_cases h1 : Nat.min g.opponentStake.val g.opponentBalance.val <
      Nat.min g.creatorStake.val g.creatorBalance.val
  · simp [h1, Nat.lt_asymm h1]
  · by_cases h2 : Nat.min g.creatorStake.val g.creatorBalance.val <
        Nat.min g.opponentStake.val g.opponentBalance.val
    · simp [h1, h2]
    · simp [h1, h2]

theorem resolveRound_opponentBalance_val (g : Game) :
    (resolveRound g).opponentBalance.val =
      if effectiveCreatorStake g < effectiveOpponentStake g then
        (g.opponentBalance.val + effectiveCreatorStake g) % U32MOD
      else if effectiveOpponentStake g < effectiveCreatorStake g then
        (g.opponentBalance.val + (U32MOD - effectiveOpponentStake g % U32MOD)) % U32MOD
      else g.opponentBalance.val := by
  unfold resolveRound effectiveCreatorStake effectiveOpponentStake
  by_cases h1 : Nat.min g.opponentStake.val g.opponentBalance.val <
      Nat.min g.creatorStake.val g.creatorBalance.val
  · simp [h1, Nat.lt_asymm h1]
  · by_cases h2 : Nat.min g.creatorStake.val g.creatorBalance.val <
        Nat.min g.opponentStake.val g.opponentBalance.val
    · simp [h1, h2]
    · simp [h1, h2]

theorem resolveRound_creatorScore_val (g : Game) :
    (resolveRound g).creatorScore.val =
      if effectiveOpponentStake g < effectiveCreatorStake g then
        (g.creatorScore.val + 1 % U32MOD) % U32MOD
      else g.creatorScore.val := by
  unfold resolveRound effectiveCreatorStake effectiveOpponentStake
  by_cases h1 : Nat.min g.opponentStake.val g.opponentBalance.val <
      Nat.min g.creatorStake.val g.creatorBalance.val
  · simp [h1]
  · simp [h1]

theorem resolveRound_opponentScore_val (g : Game) :
    (resolveRound g).opponentScore.val =
      if effectiveCreatorStake g < effectiveOpponentStake g then
        (g.opponentScore.val + 1 % U32MOD) % U32MOD
      else g.opponentScore.val := by
  unfold resolveRound effectiveCreatorStake effectiveOpponentStake
  by_cases h1 : Nat.min g.creatorStake.val g.creatorBalance.val <
      Nat.min g.opponentStake.val g.opponentBalance.val
  · simp [h1]
  · simp [h1]

/-! ## Modular arithmetic helpers -/

theorem add_mod_small (a b : Nat) (h : a + b < U32MOD) : (a + b) % U32MOD = a + b :=
  Nat.mod_eq_of_lt h

/-- The wrapping subtraction `a - b` computes the exact difference when
`b ≤ a < 2^32`. -/
theorem sub_mod_eq (a b : Nat) (ha : a < U32MOD) (hba : b ≤ a) :
    (a + (U32MOD - b % U32MOD)) % U32MOD = a - b := by
  have hb : b < U32MOD := lt_of_le_of_lt hba ha
  rw [Nat.mod_eq_of_lt hb]
  have h1 : a + (U32MOD - b) = U32MOD + (a - b) := by omega
  rw [h1, Nat.add_mod_left, Nat.mod_eq_of_lt (by omega)]

/-- Settlement is zero-sum whenever the two balances cannot overflow. -/
theorem resolveRound_sum (g : Game)
    (h : g.creatorBalance.val + g.opponentBalance.val < U32MOD) :
    (resolveRound g).creatorBalance.val + (resolveRound g).opponentBalance.val
      = g.creatorBalance.val + g.opponentBalance.val := by
  have hcb : g.creatorBalance.val < U32MOD := lt_of_le_of_lt (Nat.le_add_right _ _) h
  have hob : g.opponentBalance.val < U32MOD := lt_of_le_of_lt (Nat.le_add_left _ _) h
  rw [resolveRound_creatorBalance_val, resolveRound_opponentBalance_val]
  have hx : effectiveCreatorStake g ≤ g.creatorBalance.val := Nat.min_le_right _ _
  have hy : effectiveOpponentStake g ≤ g.opponentBalance.val := Nat.min_le_right _ _
  rcases lt_trichotomy (effectiveCreatorStake g) (effectiveOpponentStake g) with hlt | heq | hgt
  · rw [if_neg (Nat.lt_asymm hlt), if_pos hlt, if_pos hlt]
    rw [sub_mod_eq _ _ hcb hx, add_mod_small _ _ (by omega)]
    omega
  · rw [if_neg (by omega), if_neg (by omega), if_neg (by omega), if_neg (by omega)]
  · rw [if_pos hgt, if_neg (Nat.lt_asymm hgt), if_pos hgt]
    rw [sub_mod_eq _ _ hob hy, add_mod_small _ _ (by omega)]
    omega

/-! ## Grant lemmas for the handles stored by `_resolveRound` -/

theorem resolveRound_creatorBalance_allowedThis (g : Game) :
    (resolveRound g).creatorBalance.allowedThis = true := by
  simp [resolveRound]

theorem resolveRound_opponentBalance_allowedThis (g : Game) :
    (resolveRound g).opponentBalance.allowedThis = true := by
  simp [resolveRound]

theorem resolveRound_creatorScore_allowedThis (g : Game) :
    (resolveRound g).creatorScore.allowedThis = true := by
  simp [resolveRound]

theorem resolveRound_opponentScore_allowedThis (g : Game) :
    (resolveRound g).opponentScore.allowedThis = true := by
  simp [resolveRound]

theorem resolveRound_creatorBalance_mem (g : Game) (h : g.creator ≠ 0) :
    g.creator ∈ (resolveRound g).creatorBalance.allowedTo :=
  mem_allowTo_self _ _ h

theorem resolveRound_opponentBalance_mem (g : Game) (h : g.opponent ≠ 0) :
    g.opponent ∈ (resolveRound g).opponentBalance.allowedTo :=
  mem_allowTo_self _ _ h

theorem resolveRound_creatorScore_mem_creator (g : Game) (h : g.creator ≠ 0) :
    g.creator ∈ (resolveRound g).creatorScore.allowedTo :=
  mem_allowTo_of_mem _ _ _ (mem_allowTo_self _ _ h)

theorem resolveRound_creatorScore_mem_opponent (g : Game) (h : g.opponent ≠ 0) :
    g.opponent ∈ (resolveRound g).creatorScore.allowedTo :=
  mem_allowTo_self _ _ h

theorem resolveRound_opponentScore_mem_creator (g : Game) (h : g.creator ≠ 0) :
    g.creator ∈ (resolveRound g).opponentScore.allowedTo :=
  mem_allowTo_of_mem _ _ _ (mem_allowTo_self _ _ h)

theorem resolveRound_opponentScore_mem_opponent (g : Game) (h : g.opponent ≠ 0) :
    g.opponent ∈ (resolveRound g).opponentScore.allowedTo :=
  mem_allowTo_self _ _ h

/-! ## The reachability invariant -/

theorem inv_init : Inv initialState := by
  constructor <;> intro id <;>
    simp [initialState, Game.empty, getPlayerGames] at *

/-- Updating a single game while keeping its creator and opponent, the
per-game properties of the new record, and everything else untouched,
preserves the invariant. -/
theorem inv_set_game (s : ContractState) (hi : Inv s) (gameId : Nat) (g2 : Game)
    (h1 : g2.creator = (s.games gameId).creator)
    (h2 : g2.opponent = (s.games gameId).opponent)
    (hstc : g2.started = true → g2.creator ≠ 0)
    (hsto : g2.started = true → g2.opponent ≠ 0)
    (hbal : g2.started = true →
      g2.creatorBalance.val + g2.opponentBalance.val = 200)
    (hgcb : g2.started = true →
      g2.creatorBalance.allowedThis = true ∧ g2.creator ∈ g2.creatorBalance.allowedTo)
    (hgob : g2.started = true →
      g2.opponentBalance.allowedThis = true ∧ g2.opponent ∈ g2.opponentBalance.allowedTo)
    (hgcs : g2.started = true →
      g2.creatorScore.allowedThis = true ∧ g2.creator ∈ g2.creatorScore.allowedTo ∧
      g2.opponent ∈ g2.creatorScore.allowedTo)
    (hgos : g2.started = true →
      g2.opponentScore.allowedThis = true ∧ g2.creator ∈ g2.opponentScore.allowedTo ∧
      g2.opponent ∈ g2.opponentScore.allowedTo)
    (hskC : g2.creatorSubmitted = true → g2.started = true ∧
      g2.creatorStake.allowedThis = true ∧ g2.creator ∈ g2.creatorStake.allowedTo)
    (hskO : g2.opponentSubmitted = true → g2.started = true ∧
      g2.opponentStake.allowedThis = true ∧ g2.opponent ∈ g2.opponentStake.allowedTo) :
    Inv ⟨s.nextGameId, fun i => if i = gameId then g2 else s.games i,
      s.gamesByPlayer⟩ := by
  constructor
  case alloc =>
    intro id
    by_cases hid : id = gameId
    · subst hid; simpa [h1] using hi.alloc id
    · simpa [hid] using hi.alloc id
  case oppNeCreator =>
    intro id
    by_cases hid : id = gameId
    · subst hid; simpa [h1, h2] using hi.oppNeCreator id
    · simpa [hid] using hi.oppNeCreator id
  case startedCreator =>
    intro id
    by_cases hid : id = gameId
    · subst hid; simpa using hstc
    · simpa [hid] using hi.startedCreator id
  case startedOpponent =>
    intro id
    by_cases hid : id = gameId
    · subst hid; simpa using hsto
    · simpa [hid] using hi.startedOpponent id
  case balSum =>
    intro id
    by_cases hid : id = gameId
    · subst hid; simpa using hbal
    · simpa [hid] using hi.balSum id
  case grantsCB =>
    intro id
    by_cases hid : id = gameId
    · subst hid; simpa using hgcb
    · simpa [hid] using hi.grantsCB id
  case grantsOB =>
    intro id
    by_cases hid : id = gameId
    · subst hid; simpa using hgob
    · simpa [hid] using hi.grantsOB id
  case grantsCS =>
    intro id
    by_cases hid : id = gameId
    · subst hid; simpa using hgcs
    · simpa [hid] using hi.grantsCS id
  case grantsOS =>
    intro id
    by_cases hid : id = gameId
    · subst hid; simpa using hgos
    · simpa [hid] using hi.grantsOS id
  case stakeC =>
    intro id
    by_cases hid : id = gameId
    · subst hid; simpa using fun hsub => (hskC hsub).2
    · simpa [hid] using hi.stakeC id
  case stakeO =>
    intro id
    by_cases hid : id = gameId
    · subst hid; simpa using fun hsub => (hskO hsub).2
    · simpa [hid] using hi.stakeO id
  case subCStarted =>
    intro id
    by_cases hid : id = gameId
    · subst hid; simpa using fun hsub => (hskC hsub).1
    · simpa [hid] using hi.subCStarted id
  case subOStarted =>
    intro id
    by_cases hid : id = gameId
    · subst hid; simpa using fun hsub => (hskO hsub).1
    · simpa [hid] using hi.subOStarted id
  case lists =>
    intro p id hmem
    obtain ⟨hp, hlt, hco⟩ := hi.lists p id hmem
    refine ⟨hp, hlt, ?_⟩
    by_cases hid : id = gameId
    · subst hid; simpa [h1, h2] using hco
    · simpa [hid] using hco
  case listsNodup =>
    exact hi.listsNodup

/-- The explicit post-state of `createGame` preserves the invariant. -/
theorem inv_create_aux (sender : Address) (s : ContractState) (hs : sender ≠ 0)
    (hi : Inv s) :
    Inv ⟨s.nextGameId + 1,
      fun i => if i = s.nextGameId then { Game.empty with creator := sender, round := 1 }
               else s.games i,
      fun p => if p = sender then s.gamesByPlayer p ++ [s.nextGameId]
               else s.gamesByPlayer p⟩ := by
  have hfresh : ∀ p id, id ∈ s.gamesByPlayer p → id ≠ s.nextGameId := by
    intro p id hmem
    exact Nat.ne_of_lt (hi.lists p id hmem).2.1
  constructor
  case alloc =>
    intro id
    by_cases hid : id = s.nextGameId
    · subst hid; simp [Game.empty, hs]
    · have h0 := hi.alloc id
      have hlt : id < s.nextGameId + 1 ↔ id < s.nextGameId := by omega
      simpa [hid, hlt] using h0
  case oppNeCreator =>
    intro id
    by_cases hid : id = s.nextGameId
    · subst hid; simp [Game.empty]
    · simpa [hid] using hi.oppNeCreator id
  case startedCreator =>
    intro id
    by_cases hid : id = s.nextGameId
    · subst hid; simp [Game.empty]
    · simpa [hid] using hi.startedCreator id
  case startedOpponent =>
    intro id
    by_cases hid : id = s.nextGameId
    · subst hid; simp [Game.empty]
    · simpa [hid] using hi.startedOpponent id
  case balSum =>
    intro id
    by_cases hid : id = s.nextGameId
    · subst hid; simp [Game.empty]
    · simpa [hid] using hi.balSum id
  case grantsCB =>
    intro id
    by_cases hid : id = s.nextGameId
    · subst hid; simp [Game.empty]
    · simpa [hid] using hi.grantsCB id
  case grantsOB =>
    intro id
    by_cases hid : id = s.nextGameId
    · subst hid; simp [Game.empty]
    · simpa [hid] using hi.grantsOB id
  case grantsCS =>
    intro id
    by_cases hid : id = s.nextGameId
    · subst hid; simp [Game.empty]
    · simpa [hid] using hi.grantsCS id
  case grantsOS =>
    intro id
    by_cases hid : id = s.nextGameId
    · subst hid; simp [Game.empty]
    · simpa [hid] using hi.grantsOS id
  case stakeC =>
    intro id
    by_cases hid : id = s.nextGameId
    · subst hid; simp [Game.empty]
    · simpa [hid] using hi.stakeC id
  case stakeO =>
    intro id
    by_cases hid : id = s.nextGameId
    · subst hid; simp [Game.empty]
    · simpa [hid] using hi.stakeO id
  case subCStarted =>
    intro id
    by_cases hid : id = s.nextGameId
    · subst hid; simp [Game.empty]
    · simpa [hid] using hi.subCStarted id
  case subOStarted =>
    intro id
    by_cases hid : id = s.nextGameId
    · subst hid; simp [Game.empty]
    · simpa [hid] using hi.subOStarted id
  case lists =>
    intro p id hmem
    by_cases hp : p = sender
    · subst hp
      replace hmem : id ∈ s.gamesByPlayer p ++ [s.nextGameId] := by simpa using hmem
      rw [List.mem_append] at hmem
      rcases hmem with hmem | hmem
      · obtain ⟨hp0, hlt, hco⟩ := hi.lists p id hmem
        refine ⟨hp0, Nat.lt_succ_of_lt hlt, ?_⟩
        have hne : id ≠ s.nextGameId := Nat.ne_of_lt hlt
        simpa [hne] using hco
      · simp only [List.mem_singleton] at hmem
        subst hmem
        exact ⟨hs, Nat.lt_succ_self _, by simp [Game.empty]⟩
    · replace hmem : id ∈ s.gamesByPlayer p := by simpa [hp] using hmem
      obtain ⟨hp0, hlt, hco⟩ := hi.lists p id hmem
      refine ⟨hp0, Nat.lt_succ_of_lt hlt, ?_⟩
      have hne : id ≠ s.nextGameId := Nat.ne_of_lt hlt
      simpa [hne] using hco
  case listsNodup =>
    intro p
    by_cases hp : p = sender
    · subst hp
      have hnd : (s.gamesByPlayer p ++ [s.nextGameId]).Nodup := by
        rw [List.nodup_append]
        refine ⟨hi.listsNodup p, List.nodup_singleton _, ?_⟩
        intro a ha hb
        simp only [List.mem_singleton] at hb
        subst hb
        exact hfresh p _ ha rfl
      simpa using hnd
    · simpa [hp] using hi.listsNodup p

/-- `createGame` preserves the invariant. -/
theorem inv_create (sender : Address) (s : ContractState) (hs : sender ≠ 0)
    (hi : Inv s) : Inv (createGame sender s).1 :=
  inv_create_aux sender s hs hi

/-- The explicit post-state of a successful `joinGame` preserves the
invariant. -/
theorem inv_join_aux (sender : Address) (gameId : Nat) (s : ContractState)
    (hs : sender ≠ 0) (hi : Inv s)
    (hc : (s.games gameId).creator ≠ 0)
    (ho : (s.games gameId).opponent = 0)
    (hcs : (s.games gameId).creator ≠ sender) :
    Inv ⟨s.nextGameId,
      fun i => if i = gameId then { s.games gameId with opponent := sender }
               else s.games i,
      fun p => if p = sender then s.gamesByPlayer p ++ [gameId]
               else s.gamesByPlayer p⟩ := by
  have hnst : (s.games gameId).started = false := by
    cases hst : (s.games gameId).started
    · rfl
    · exact absurd ho (hi.startedOpponent gameId hst)
  have hcsub : (s.games gameId).creatorSubmitted = false := by
    cases hsub : (s.games gameId).creatorSubmitted
    · rfl
    · rw [hi.subCStarted gameId hsub] at hnst; cases hnst
  have hosub : (s.games gameId).opponentSubmitted = false := by
    cases hsub : (s.games gameId).opponentSubmitted
    · rfl
    · rw [hi.subOStarted gameId hsub] at hnst; cases hnst
  have hnomem : gameId ∉ s.gamesByPlayer sender := by
    intro hmem
    rcases (hi.lists sender gameId hmem).2.2 with h | h
    · exact hcs h
    · rw [ho] at h; exact hs h.symm
  constructor
  case alloc =>
    intro id
    by_cases hid : id = gameId
    · subst hid; simpa using hi.alloc id
    · simpa [hid] using hi.alloc id
  case oppNeCreator =>
    intro id
    by_cases hid : id = gameId
    · subst hid; simpa using fun _ => fun he => hcs he.symm
    · simpa [hid] using hi.oppNeCreator id
  case startedCreator =>
    intro id
    by_cases hid : id = gameId
    · subst hid; simp [hnst]
    · simpa [hid] using hi.startedCreator id
  case startedOpponent =>
    intro id
    by_cases hid : id = gameId
    · subst hid; simp [hnst]
    · simpa [hid] using hi.startedOpponent id
  case balSum =>
    intro id
    by_cases hid : id = gameId
    · subst hid; simp [hnst]
    · simpa [hid] using hi.balSum id
  case grantsCB =>
    intro id
    by_cases hid : id = gameId
    · subst hid; simp [hnst]
    · simpa [hid] using hi.grantsCB id
  case grantsOB =>
    intro id
    by_cases hid : id = gameId
    · subst hid; simp [hnst]
    · simpa [hid] using hi.grantsOB id
  case grantsCS =>
    intro id
    by_cases hid : id = gameId
    · subst hid; simp [hnst]
    · simpa [hid] using hi.grantsCS id
  case grantsOS =>
    intro id
    by_cases hid : id = gameId
    · subst hid; simp [hnst]
    · simpa [hid] using hi.grantsOS id
  case stakeC =>
    intro id
    by_cases hid : id = gameId
    · subst hid; simp [hcsub]
    · simpa [hid] using hi.stakeC id
  case stakeO =>
    intro id
    by_cases hid : id = gameId
    · subst hid; simp [hosub]
    · simpa [hid] using hi.stakeO id
  case subCStarted =>
    intro id
    by_cases hid : id = gameId
    · subst hid; simp [hcsub]
    · simpa [hid] using hi.subCStarted id
  case subOStarted =>
    intro id
    by_cases hid : id = gameId
    · subst hid; simp [hosub]
    · simpa [hid] using hi.subOStarted id
  case lists =>
    intro p id hmem
    by_cases hp : p = sender
    · subst hp
      replace hmem : id ∈ s.gamesByPlayer p ++ [gameId] := by simpa using hmem
      rw [List.mem_append] at hmem
      rcases hmem with hmem | hmem
      · obtain ⟨hp0, hlt, hco⟩ := hi.lists p id hmem
        refine ⟨hp0, hlt, ?_⟩
        by_cases hid : id = gameId
        · subst hid; simp
        · simpa [hid] using hco
      · simp only [List.mem_singleton] at hmem
        subst hmem
        have hlt : id < s.nextGameId := (hi.alloc id).mp hc
        exact ⟨hs, hlt, by simp⟩
    · replace hmem : id ∈ s.gamesByPlayer p := by simpa [hp] using hmem
      obtain ⟨hp0, hlt, hco⟩ := hi.lists p id hmem
      refine ⟨hp0, hlt, ?_⟩
      by_cases hid : id = gameId
      · subst hid
        rcases hco with h | h
        · simp [h]
        · rw [ho] at h; exact absurd h.symm hp0
      · simpa [hid] using hco
  case listsNodup =>
    intro p
    by_cases hp : p = sender
    · subst hp
      have hnd : (s.gamesByPlayer p ++ [gameId]).Nodup := by
        rw [List.nodup_append]
        refine ⟨hi.listsNodup p, List.nodup_singleton _, ?_⟩
        intro a ha hb
        simp only [List.mem_singleton] at hb
        subst hb
        exact hnomem ha
      simpa using hnd
    · simpa [hp] using hi.listsNodup p

/-- `joinGame` preserves the invariant. -/
theorem inv_join (sender : Address) (gameId : Nat) (s s2 : ContractState)
    (hs : sender ≠ 0) (hi : Inv s) (h : joinGame sender gameId s = .ok s2) :
    Inv s2 := by
  simp only [joinGame] at h
  split at h
  · exact absurd h (by simp)
  · split at h
    · exact absurd h (by simp)
    · split at h
      · exact absurd h (by simp)
      · rename_i hc ho hcs
        rw [Except.ok.injEq] at h
        subst h
        exact inv_join_aux sender gameId s hs hi hc (not_not.mp ho) hcs

/-- `startGame` preserves the invariant. -/
theorem inv_start (sender : Address) (gameId : Nat) (s s2 : ContractState)
    (hi : Inv s) (h : startGame sender gameId s = .ok s2) : Inv s2 := by
  simp only [startGame] at h
  split at h
  · exact absurd h (by simp)
  · split at h
    · exact absurd h (by simp)
    · split at h
      · exact absurd h (by simp)
      · split at h
        · exact absurd h (by simp)
        · rename_i hc hp hst ho
          rw [Except.ok.injEq] at h
          subst h
          refine inv_set_game s hi gameId _ rfl rfl (fun _ => hc) (fun _ => ho)
            (fun _ => by norm_num [U32MOD])
            (fun _ => ⟨by simp, mem_allowTo_self _ _ hc⟩)
            (fun _ => ⟨by simp, mem_allowTo_self _ _ ho⟩)
            (fun _ => ⟨by simp, mem_allowTo_of_mem _ _ _ (mem_allowTo_self _ _ hc),
              mem_allowTo_self _ _ ho⟩)
            (fun _ => ⟨by simp, mem_allowTo_of_mem _ _ _ (mem_allowTo_self _ _ hc),
              mem_allowTo_self _ _ ho⟩)
            (fun hx => by simp at hx)
            (fun hx => by simp at hx)

/-- `submitStake` preserves the invariant. -/
theorem inv_submit (sender : Address) (gameId : Nat) (stakeVal : Nat)
    (s s2 : ContractState) (hs : sender ≠ 0) (hi : Inv s)
    (h : submitStake sender gameId stakeVal s = .ok s2) : Inv s2 := by
  simp only [submitStake] at h
  split at h
  · exact absurd h (by simp)
  · split at h
    · exact absurd h (by simp)
    · split at h
      · exact absurd h (by simp)
      · rename_i hc hp hst
        replace hst : (s.games gameId).started = true := not_not.mp hst
        have hone : (s.games gameId).opponent ≠ 0 := hi.startedOpponent gameId hst
        have hcne : (s.games gameId).creator ≠ 0 := hc
        have hsum : (s.games gameId).creatorBalance.val +
            (s.games gameId).opponentBalance.val = 200 := hi.balSum gameId hst
        split at h
        · -- creator branch
          rename_i hsc
          split at h
          · exact absurd h (by simp)
          · rename_i hcsub
            by_cases hos : (s.games gameId).opponentSubmitted = true
            · -- both submitted: the round settles
              simp only [hos, Bool.and_self, Bool.true_and, if_true, ite_true,
                Except.ok.injEq] at h
              subst h
              refine inv_set_game s hi gameId _ rfl rfl (fun _ => hc) (fun _ => hone)
                (fun _ => ?_) (fun _ => ?_) (fun _ => ?_) (fun _ => ?_) (fun _ => ?_)
                (fun hx => ?_) (fun hx => ?_)
              · rw [resolveRound_sum _ (by rw [hsum]; norm_num [U32MOD])]
                exact hsum
              · exact ⟨resolveRound_creatorBalance_allowedThis _,
                  resolveRound_creatorBalance_mem _ hc⟩
              · exact ⟨resolveRound_opponentBalance_allowedThis _,
                  resolveRound_opponentBalance_mem _ hone⟩
              · exact ⟨resolveRound_creatorScore_allowedThis _,
                  resolveRound_creatorScore_mem_creator _ hc,
                  resolveRound_creatorScore_mem_opponent _ hone⟩
              · exact ⟨resolveRound_opponentScore_allowedThis _,
                  resolveRound_opponentScore_mem_creator _ hc,
                  resolveRound_opponentScore_mem_opponent _ hone⟩
              · rw [resolveRound_creatorSubmitted] at hx; cases hx
              · rw [resolveRound_opponentSubmitted] at hx; cases hx
            · -- only the creator has submitted
              simp only [Bool.true_and, Bool.and_eq_true, Except.ok.injEq,
                eq_self_iff_true, true_and] at h
              rw [if_neg (by simpa using hos)] at h
              subst h
              refine inv_set_game s hi gameId _ rfl rfl (fun _ => hc) (fun _ => hone)
                (fun _ => hsum) (fun _ => hi.grantsCB gameId hst)
                (fun _ => hi.grantsOB gameId hst) (fun _ => hi.grantsCS gameId hst)
                (fun _ => hi.grantsOS gameId hst)
                (fun _ => ⟨hst, by simp, ?_⟩) (fun hx => absurd hx hos)
              have : (s.games gameId).creator = sender := hsc.symm
              rw [this]
              exact mem_allowTo_self _ _ hs
        · -- opponent branch
          rename_i hsc
          have hso : sender = (s.games gameId).opponent := by
            rcases not_not.mp hp with h1 | h1
            · exact absurd h1 hsc
            · exact h1
          split at h
          · exact absurd h (by simp)
          · rename_i hosub
            by_cases hcsub : (s.games gameId).creatorSubmitted = true
            · -- both submitted: the round settles
              simp only [hcsub, Bool.and_self, Bool.and_true, if_true, ite_true,
                Except.ok.injEq] at h
              subst h
              refine inv_set_game s hi gameId _ rfl rfl (fun _ => hc) (fun _ => hone)
                (fun _ => ?_) (fun _ => ?_) (fun _ => ?_) (fun _ => ?_) (fun _ => ?_)
                (fun hx => ?_) (fun hx => ?_)
              · rw [resolveRound_sum _ (by rw [hsum]; norm_num [U32MOD])]
                exact hsum
              · exact ⟨resolveRound_creatorBalance_allowedThis _,
                  resolveRound_creatorBalance_mem _ hc⟩
              · exact ⟨resolveRound_opponentBalance_allowedThis _,
                  resolveRound_opponentBalance_mem _ hone⟩
              · exact ⟨resolveRound_creatorScore_allowedThis _,
                  resolveRound_creatorScore_mem_creator _ hc,
                  resolveRound_creatorScore_mem_opponent _ hone⟩
              · exact ⟨resolveRound_opponentScore_allowedThis _,
                  resolveRound_opponentScore_mem_creator _ hc,
                  resolveRound_opponentScore_mem_opponent _ hone⟩
              · rw [resolveRound_creatorSubmitted] at hx; cases hx
              · rw [resolveRound_opponentSubmitted] at hx; cases hx
            · -- only the opponent has submitted
              rw [if_neg (by simpa using hcsub), Except.ok.injEq] at h
              subst h
              refine inv_set_game s hi gameId _ rfl rfl (fun _ => hc) (fun _ => hone)
                (fun _ => hsum) (fun _ => hi.grantsCB gameId hst)
                (fun _ => hi.grantsOB gameId hst) (fun _ => hi.grantsCS gameId hst)
                (fun _ => hi.grantsOS gameId hst)
                (fun hx => absurd hx hcsub) (fun _ => ⟨hst, by simp, ?_⟩)
              rw [← hso]
              exact mem_allowTo_self _ _ hs

/-- Every single successful call preserves the invariant. -/
theorem step_inv {s s2 : ContractState} (h : Step s s2) (hi : Inv s) : Inv s2 := by
  cases h with
  | create sender s hs => exact inv_create sender s hs hi
  | join sender gameId s s2 hs h => exact inv_join sender gameId s s2 hs hi h
  | start sender gameId s s2 hs h => exact inv_start sender gameId s s2 hi h
  | submit sender gameId stakeVal s s2 hs h =>
      exact inv_submit sender gameId stakeVal s s2 hs hi h

/-- The invariant holds in every reachable state. -/
theorem reachable_inv {s : ContractState} (h : Reachable s) : Inv s := by
  induction h with
  | refl => exact inv_init
  | tail _ hstep ih => exact step_inv hstep ih

/-! ## The claims -/

/-- C1: for every started game in which both sides have submitted,
settlement computes effective stakes `min(stake, balance)`; with a strict
winner, the winner's balance grows by exactly the loser's effective stake,
the loser's balance shrinks by exactly the loser's own effective stake, the
winner's score is incremented by exactly 1 and the other score is
unchanged (balances and scores are the plaintext values of the ciphertexts,
which in reachable states sum to 200 and hence satisfy the overflow-freedom
hypotheses). -/
theorem C1_settlement_strict_winner (g : Game)
    (hst : g.started = true)
    (hcsub : g.creatorSubmitted = true) (hosub : g.opponentSubmitted = true)
    (hcb : g.creatorBalance.val < U32MOD) (hob : g.opponentBalance.val < U32MOD)
    (hsum : g.creatorBalance.val + g.opponentBalance.val < U32MOD)
    (hcsc : g.creatorScore.val + 1 < U32MOD)
    (hosc : g.opponentScore.val + 1 < U32MOD) :
    (effectiveOpponentStake g < effectiveCreatorStake g →
      (resolveRound g).creatorBalance.val
        = g.creatorBalance.val + effectiveOpponentStake g ∧
      (resolveRound g).opponentBalance.val
        = g.opponentBalance.val - effectiveOpponentStake g ∧
      (resolveRound g).creatorScore.val = g.creatorScore.val + 1 ∧
      (resolveRound g).opponentScore.val = g.opponentScore.val) ∧
    (effectiveCreatorStake g < effectiveOpponentStake g →
      (resolveRound g).opponentBalance.val
        = g.opponentBalance.val + effectiveCreatorStake g ∧
      (resolveRound g).creatorBalance.val
        = g.creatorBalance.val - effectiveCreatorStake g ∧
      (resolveRound g).opponentScore.val = g.opponentScore.val + 1 ∧
      (resolveRound g).creatorScore.val = g.creatorScore.val) := by
  have hx : effectiveCreatorStake g ≤ g.creatorBalance.val := Nat.min_le_right _ _
  have hy : effectiveOpponentStake g ≤ g.opponentBalance.val := Nat.min_le_right _ _
  have h1 : (1 : Nat) % U32MOD = 1 := by norm_num [U32MOD]
  constructor
  · intro hlt
    refine ⟨?_, ?_, ?_, ?_⟩
    · rw [resolveRound_creatorBalance_val, if_pos hlt]
      exact add_mod_small _ _ (by omega)
    · rw [resolveRound_opponentBalance_val, if_neg (Nat.lt_asymm hlt), if_pos hlt]
      exact sub_mod_eq _ _ hob hy
    · rw [resolveRound_creatorScore_val, if_pos hlt, h1]
      exact add_mod_small _ _ hcsc
    · rw [resolveRound_opponentScore_val, if_neg (Nat.lt_asymm hlt)]
  · intro hlt
    refine ⟨?_, ?_, ?_, ?_⟩
    · rw [resolveRound_opponentBalance_val, if_pos hlt]
      exact add_mod_small _ _ (by omega)
    · rw [resolveRound_creatorBalance_val, if_neg (Nat.lt_asymm hlt), if_pos hlt]
      exact sub_mod_eq _ _ hcb hx
    · rw [resolveRound_opponentScore_val, if_pos hlt, h1]
      exact add_mod_small _ _ hosc
    · rw [resolveRound_creatorScore_val, if_neg (Nat.lt_asymm hlt)]

/-- C1 witness: the general theorem applied to the concrete 25-versus-10
game, together with the end-to-end scenario create → join → start →
submit 25 → submit 10 yielding balances 110/90, scores 1/0, round 2. -/
theorem C1_settlement_strict_winner_witness :
    ((resolveRound gScenario).creatorBalance.val
        = gScenario.creatorBalance.val + effectiveOpponentStake gScenario ∧
      (resolveRound gScenario).opponentBalance.val
        = gScenario.opponentBalance.val - effectiveOpponentStake gScenario ∧
      (resolveRound gScenario).creatorScore.val = gScenario.creatorScore.val + 1 ∧
      (resolveRound gScenario).opponentScore.val = gScenario.opponentScore.val) ∧
    (sSettled.games 0).creatorBalance.val = 110 ∧
    (sSettled.games 0).opponentBalance.val = 90 ∧
    (sSettled.games 0).creatorScore.val = 1 ∧
    (sSettled.games 0).opponentScore.val = 0 ∧
    (sSettled.games 0).round = 2 :=
  ⟨(C1_settlement_strict_winner gScenario rfl rfl rfl (by decide) (by decide)
      (by decide) (by decide) (by decide)).1 (by decide),
    by decide, by decide, by decide, by decide, by decide⟩

/-- C2: settlement conserves the sum of the two balances (whenever the sum
cannot overflow, which holds in every reachable state), and in every
reachable started state the sum is exactly 200. -/
theorem C2_balance_conservation :
    (∀ g : Game, g.creatorBalance.val + g.opponentBalance.val < U32MOD →
      (resolveRound g).creatorBalance.val + (resolveRound g).opponentBalance.val
        = g.creatorBalance.val + g.opponentBalance.val) ∧
    (∀ s, Reachable s → ∀ id, (s.games id).started = true →
      (s.games id).creatorBalance.val + (s.games id).opponentBalance.val = 200) :=
  ⟨fun g h => resolveRound_sum g h,
   fun _ hr id hst => (reachable_inv hr).balSum id hst⟩

/-- C2 witness: conservation at the concrete 25-versus-10 settlement, and
the 200 invariant in the concrete settled reachable state. -/
theorem C2_balance_conservation_witness :
    ((resolveRound gScenario).creatorBalance.val
        + (resolveRound gScenario).opponentBalance.val
      = gScenario.creatorBalance.val + gScenario.opponentBalance.val) ∧
    ((sSettled.games 0).creatorBalance.val
        + (sSettled.games 0).opponentBalance.val = 200) :=
  ⟨C2_balance_conservation.1 gScenario (by decide),
   C2_balance_conservation.2 sSettled reach_sSettled 0 (by decide)⟩

/-- C3: for all stake values, including stakes exceeding the balance, the
effective stakes are clamped to the balances, and the loser's balance is
updated by an exact (non-wrapping) subtraction of its own effective stake,
so no settlement drives a balance below zero. -/
theorem C3_stake_clamp (g : Game)
    (hcb : g.creatorBalance.val < U32MOD) (hob : g.opponentBalance.val < U32MOD) :
    effectiveCreatorStake g ≤ g.creatorBalance.val ∧
    effectiveOpponentStake g ≤ g.opponentBalance.val ∧
    (effectiveCreatorStake g < effectiveOpponentStake g →
      (resolveRound g).creatorBalance.val
        = g.creatorBalance.val - effectiveCreatorStake g) ∧
    (effectiveOpponentStake g < effectiveCreatorStake g →
      (resolveRound g).opponentBalance.val
        = g.opponentBalance.val - effectiveOpponentStake g) := by
  have hx : effectiveCreatorStake g ≤ g.creatorBalance.val := Nat.min_le_right _ _
  have hy : effectiveOpponentStake g ≤ g.opponentBalance.val := Nat.min_le_right _ _
  refine ⟨hx, hy, ?_, ?_⟩
  · intro hlt
    rw [resolveRound_creatorBalance_val, if_neg (Nat.lt_asymm hlt), if_pos hlt]
    exact sub_mod_eq _ _ hcb hx
  · intro hlt
    rw [resolveRound_opponentBalance_val, if_neg (Nat.lt_asymm hlt), if_pos hlt]
    exact sub_mod_eq _ _ hob hy

/-- C3 witness: with the opponent staking 5000 against a balance of 100,
the opponent's effective stake is clamped to 100; the creator (staking 30)
loses exactly 30 and keeps a non-negative balance of 70. -/
theorem C3_stake_clamp_witness :
    effectiveOpponentStake gOverstake ≤ gOverstake.opponentBalance.val ∧
    ((resolveRound gOverstake).creatorBalance.val
      = gOverstake.creatorBalance.val - effectiveCreatorStake gOverstake) ∧
    (resolveRound gOverstake).creatorBalance.val = 70 ∧
    (resolveRound gOverstake).opponentBalance.val = 130 :=
  ⟨(C3_stake_clamp gOverstake (by decide) (by decide)).2.1,
   (C3_stake_clamp gOverstake (by decide) (by decide)).2.2.1 (by decide),
   by decide, by decide⟩

/-- C4: when the two effective stakes are equal, settlement leaves both
balances and both scores unchanged, increments the round counter by exactly
1 and resets both submitted flags. -/
theorem C4_tie_noop (g : Game)
    (h : effectiveCreatorStake g = effectiveOpponentStake g) :
    (resolveRound g).creatorBalance.val = g.creatorBalance.val ∧
    (resolveRound g).opponentBalance.val = g.opponentBalance.val ∧
    (resolveRound g).creatorScore.val = g.creatorScore.val ∧
    (resolveRound g).opponentScore.val = g.opponentScore.val ∧
    (resolveRound g).round = g.round + 1 ∧
    (resolveRound g).creatorSubmitted = false ∧
    (resolveRound g).opponentSubmitted = false := by
  refine ⟨?_, ?_, ?_, ?_, resolveRound_round g, resolveRound_creatorSubmitted g,
    resolveRound_opponentSubmitted g⟩
  · rw [resolveRound_creatorBalance_val, if_neg (by omega), if_neg (by omega)]
  · rw [resolveRound_opponentBalance_val, if_neg (by omega), if_neg (by omega)]
  · rw [resolveRound_creatorScore_val, if_neg (by omega)]
  · rw [resolveRound_opponentScore_val, if_neg (by omega)]

/-- C4 witness: the tie theorem applied to the concrete 15-versus-15 game,
with the concrete outcome spelled out. -/
theorem C4_tie_noop_witness :
    ((resolveRound gTie).creatorBalance.val = gTie.creatorBalance.val ∧
     (resolveRound gTie).opponentBalance.val = gTie.opponentBalance.val ∧
     (resolveRound gTie).creatorScore.val = gTie.creatorScore.val ∧
     (resolveRound gTie).opponentScore.val = gTie.opponentScore.val ∧
     (resolveRound gTie).round = gTie.round + 1 ∧
     (resolveRound gTie).creatorSubmitted = false ∧
     (resolveRound gTie).opponentSubmitted = false) ∧
    (resolveRound gTie).creatorBalance.val = 100 ∧
    (resolveRound gTie).round = 2 :=
  ⟨C4_tie_noop gTie (by decide), by decide, by decide⟩

/-- C5 counterexample: the claim fails on the code.  In the reachable state
reached by create → join → start, game 0 is started, yet the stake handles
written by `startGame` as encrypted 0 carry neither an `allowThis` grant nor
any decrypt grant; the same holds for the stake handles reset to encrypted 0
by settlement (state after create → join → start → submit 25 → submit 10).
So not every encrypted value the engine produces receives both grants. -/
theorem C5_grants_counterexample :
    Reachable sStarted ∧ (sStarted.games 0).started = true ∧
    (sStarted.games 0).creatorStake.allowedThis = false ∧
    (sStarted.games 0).creatorStake.allowedTo = [] ∧
    (sStarted.games 0).opponentStake.allowedThis = false ∧
    Reachable sSettled ∧
    (sSettled.games 0).creatorStake.allowedThis = false ∧
    (sSettled.games 0).creatorStake.allowedTo = [] ∧
    (sSettled.games 0).opponentStake.allowedThis = false :=
  ⟨reach_sStarted, by decide, by decide, by decide, by decide,
   reach_sSettled, by decide, by decide, by decide⟩

/-- C5 (amended): in every reachable state, every *balance and score*
handle of a started game has both an `allowThis` grant and the decrypt
grants of its intended viewers (own balance to its owner, both scores to
both players), and every *submitted stake* handle has `allowThis` and its
submitter's decrypt grant; the stake handles holding encrypted 0 (written
at start and at each settlement) receive no grants. -/
theorem C5_grants_amended (s : ContractState) (hr : Reachable s) (id : Nat)
    (hst : (s.games id).started = true) :
    ((s.games id).creatorBalance.allowedThis = true ∧
     (s.games id).creator ∈ (s.games id).creatorBalance.allowedTo) ∧
    ((s.games id).opponentBalance.allowedThis = true ∧
     (s.games id).opponent ∈ (s.games id).opponentBalance.allowedTo) ∧
    ((s.games id).creatorScore.allowedThis = true ∧
     (s.games id).creator ∈ (s.games id).creatorScore.allowedTo ∧
     (s.games id).opponent ∈ (s.games id).creatorScore.allowedTo) ∧
    ((s.games id).opponentScore.allowedThis = true ∧
     (s.games id).creator ∈ (s.games id).opponentScore.allowedTo ∧
     (s.games id).opponent ∈ (s.games id).opponentScore.allowedTo) ∧
    ((s.games id).creatorSubmitted = true →
      (s.games id).creatorStake.allowedThis = true ∧
      (s.games id).creator ∈ (s.games id).creatorStake.allowedTo) ∧
    ((s.games id).opponentSubmitted = true →
      (s.games id).opponentStake.allowedThis = true ∧
      (s.games id).opponent ∈ (s.games id).opponentStake.allowedTo) := by
  have hi := reachable_inv hr
  exact ⟨hi.grantsCB id hst, hi.grantsOB id hst, hi.grantsCS id hst,
    hi.grantsOS id hst, hi.stakeC id, hi.stakeO id⟩

/-- C5 (amended) witness: the amended theorem applied to the concrete
settled reachable state. -/
theorem C5_grants_amended_witness :
    ((sSettled.games 0).creatorBalance.allowedThis = true ∧
     (sSettled.games 0).creator ∈ (sSettled.games 0).creatorBalance.allowedTo) ∧
    ((sSettled.games 0).opponentBalance.allowedThis = true ∧
     (sSettled.games 0).opponent ∈ (sSettled.games 0).opponentBalance.allowedTo) ∧
    ((sSettled.games 0).creatorScore.allowedThis = true ∧
     (sSettled.games 0).creator ∈ (sSettled.games 0).creatorScore.allowedTo ∧
     (sSettled.games 0).opponent ∈ (sSettled.games 0).creatorScore.allowedTo) ∧
    ((sSettled.games 0).opponentScore.allowedThis = true ∧
     (sSettled.games 0).creator ∈ (sSettled.games 0).opponentScore.allowedTo ∧
     (sSettled.games 0).opponent ∈ (sSettled.games 0).opponentScore.allowedTo) ∧
    ((sSettled.games 0).creatorSubmitted = true →
      (sSettled.games 0).creatorStake.allowedThis = true ∧
      (sSettled.games 0).creator ∈ (sSettled.games 0).creatorStake.allowedTo) ∧
    ((sSettled.games 0).opponentSubmitted = true →
      (sSettled.games 0).opponentStake.allowedThis = true ∧
      (sSettled.games 0).opponent ∈ (sSettled.games 0).opponentStake.allowedTo) :=
  C5_grants_amended sSettled reach_sSettled 0 (by decide)

/-- C6: a second `submitStake` from the same side within the same round is
rejected with the duplicate-submission error ("Already submitted"); since a
rejected call is an `Except.error` carrying no post-state, the game record
is left entirely unchanged by the failing call. -/
theorem C6_duplicate_submission (s : ContractState) (sender : Address)
    (gameId : Nat) (stakeVal : Nat)
    (hex : (s.games gameId).creator ≠ 0)
    (hpart : sender = (s.games gameId).creator ∨ sender = (s.games gameId).opponent)
    (hst : (s.games gameId).started = true)
    (hdup : (sender = (s.games gameId).creator ∧
               (s.games gameId).creatorSubmitted = true) ∨
            (sender ≠ (s.games gameId).creator ∧
               (s.games gameId).opponentSubmitted = true)) :
    submitStake sender gameId stakeVal s = .error .alreadySubmitted := by
  simp only [submitStake]
  rw [if_neg hex, if_neg (not_not_intro hpart), if_neg (not_not_intro hst)]
  rcases hdup with ⟨h1, h2⟩ | ⟨h1, h2⟩
  · rw [if_pos h1, if_pos h2]
  · rw [if_neg h1, if_pos h2]

/-- C6 witness: in the concrete reachable state in which alice has already
staked for round 1, a second submission by alice is rejected. -/
theorem C6_duplicate_submission_witness :
    (sAliceStaked.games 0).creatorSubmitted = true ∧
    submitStake 1 0 25 sAliceStaked = .error .alreadySubmitted :=
  ⟨by decide,
   C6_duplicate_submission sAliceStaked 1 0 25 (by decide) (by decide) (by decide)
     (Or.inl ⟨by decide, by decide⟩)⟩

/-- C7: `joinGame` fails with "Game not found" on unallocated identifiers,
with "Game already has opponent" whenever an opponent is set, and with
"Creator cannot join own game" when the creator calls it; otherwise it sets
the opponent and appends the id to the caller's list.  Consequently, once
set, an opponent can never be overwritten (every later join fails), and in
every reachable state a nonzero opponent differs from the creator. -/
theorem C7_join_spec :
    (∀ s sender gameId, Reachable s → s.nextGameId ≤ gameId →
      joinGame sender gameId s = .error .gameNotFound) ∧
    (∀ s sender gameId, (s.games gameId).creator ≠ 0 →
      (s.games gameId).opponent ≠ 0 →
      joinGame sender gameId s = .error .alreadyHasOpponent) ∧
    (∀ s gameId, (s.games gameId).creator ≠ 0 → (s.games gameId).opponent = 0 →
      joinGame ((s.games gameId).creator) gameId s = .error .creatorCannotJoin) ∧
    (∀ s sender gameId, (s.games gameId).creator ≠ 0 →
      (s.games gameId).opponent = 0 → (s.games gameId).creator ≠ sender →
      ∃ s2, joinGame sender gameId s = .ok s2 ∧
        (s2.games gameId).opponent = sender ∧
        s2.gamesByPlayer sender = s.gamesByPlayer sender ++ [gameId]) ∧
    (∀ s, Reachable s → ∀ id, (s.games id).opponent ≠ 0 →
      (s.games id).opponent ≠ (s.games id).creator) := by
  refine ⟨?_, ?_, ?_, ?_, ?_⟩
  · intro s sender gameId hr hge
    have hc : (s.games gameId).creator = 0 := by
      by_contra hcne
      have := ((reachable_inv hr).alloc gameId).mp hcne
      omega
    simp only [joinGame]
    rw [if_pos hc]
  · intro s sender gameId hc ho
    simp only [joinGame]
    rw [if_neg hc, if_pos ho]
  · intro s gameId hc ho
    simp only [joinGame]
    rw [if_neg hc, if_neg (not_not_intro ho)]
    simp
  · intro s sender gameId hc ho hcs
    refine ⟨⟨s.nextGameId,
        fun i => if i = gameId then { s.games gameId with opponent := sender }
                 else s.games i,
        fun p => if p = sender then s.gamesByPlayer p ++ [gameId]
                 else s.gamesByPlayer p⟩, ?_, ?_, ?_⟩
    · simp only [joinGame]
      rw [if_neg hc, if_neg (not_not_intro ho), if_neg hcs]
    · simp
    · simp
  · intro s hr id ho
    exact (reachable_inv hr).oppNeCreator id ho

/-- C7 witness: each conjunct applied at a concrete state: joining the
unallocated id 5 fails NotFound, joining the already-joined game 0 fails
AlreadyFull, the creator joining their own game fails SelfJoin, bob's join
of the open game succeeds and appends, and in the joined state the opponent
differs from the creator. -/
theorem C7_join_spec_witness :
    joinGame 2 5 sCreated = .error .gameNotFound ∧
    joinGame 3 0 sJoined = .error .alreadyHasOpponent ∧
    joinGame 1 0 sCreated = .error .creatorCannotJoin ∧
    (∃ s2, joinGame 2 0 sCreated = .ok s2 ∧ (s2.games 0).opponent = 2 ∧
      s2.gamesByPlayer 2 = sCreated.gamesByPlayer 2 ++ [0]) ∧
    (sJoined.games 0).opponent ≠ (sJoined.games 0).creator :=
  ⟨C7_join_spec.1 sCreated 2 5 reach_sCreated (by decide),
   C7_join_spec.2.1 sJoined 3 0 (by decide) (by decide),
   C7_join_spec.2.2.1 sCreated 0 (by decide) (by decide),
   C7_join_spec.2.2.2.1 sCreated 2 0 (by decide) (by decide) (by decide),
   C7_join_spec.2.2.2.2 sJoined reach_sJoined 0 (by decide)⟩

/-- C8: a successful `startGame` sets `started`, initializes both balances
to encryptions of 100 and both scores to encryptions of 0, grants
`allowThis` on all four fresh ciphertexts, and grants decryption
asymmetrically: each player may decrypt their own balance but not the other
player's balance, while both players may decrypt both scores. -/
theorem C8_start_spec (s : ContractState) (sender : Address) (gameId : Nat)
    (hc : (s.games gameId).creator ≠ 0)
    (hp : sender = (s.games gameId).creator ∨ sender = (s.games gameId).opponent)
    (hns : (s.games gameId).started = false)
    (ho : (s.games gameId).opponent ≠ 0)
    (hne : (s.games gameId).opponent ≠ (s.games gameId).creator) :
    ∃ s2, startGame sender gameId s = .ok s2 ∧
      (s2.games gameId).started = true ∧
      (s2.games gameId).creatorBalance.val = 100 ∧
      (s2.games gameId).opponentBalance.val = 100 ∧
      (s2.games gameId).creatorScore.val = 0 ∧
      (s2.games gameId).opponentScore.val = 0 ∧
      (s2.games gameId).creatorBalance.allowedThis = true ∧
      (s2.games gameId).opponentBalance.allowedThis = true ∧
      (s2.games gameId).creatorScore.allowedThis = true ∧
      (s2.games gameId).opponentScore.allowedThis = true ∧
      ((s.games gameId).creator ∈ (s2.games gameId).creatorBalance.allowedTo ∧
        (s.games gameId).opponent ∉ (s2.games gameId).creatorBalance.allowedTo) ∧
      ((s.games gameId).opponent ∈ (s2.games gameId).opponentBalance.allowedTo ∧
        (s.games gameId).creator ∉ (s2.games gameId).opponentBalance.allowedTo) ∧
      ((s.games gameId).creator ∈ (s2.games gameId).creatorScore.allowedTo ∧
        (s.games gameId).opponent ∈ (s2.games gameId).creatorScore.allowedTo) ∧
      ((s.games gameId).creator ∈ (s2.games gameId).opponentScore.allowedTo ∧
        (s.games gameId).opponent ∈ (s2.games gameId).opponentScore.allowedTo) := by
  have hne' : (s.games gameId).creator ≠ (s.games gameId).opponent := Ne.symm hne
  refine ⟨⟨s.nextGameId,
      fun i => if i = gameId then
        { s.games gameId with
          started := true
          creatorBalance :=
            allowTo (FHE.allowThis (FHE.asEuint32 100)) (s.games gameId).creator
          opponentBalance :=
            allowTo (FHE.allowThis (FHE.asEuint32 100)) (s.games gameId).opponent
          creatorScore :=
            allowTo (allowTo (FHE.allowThis (FHE.asEuint32 0))
              (s.games gameId).creator) (s.games gameId).opponent
          opponentScore :=
            allowTo (allowTo (FHE.allowThis (FHE.asEuint32 0))
              (s.games gameId).creator) (s.games gameId).opponent
          creatorStake := FHE.asEuint32 0
          opponentStake := FHE.asEuint32 0
          creatorSubmitted := false
          opponentSubmitted := false }
      else s.games i,
      s.gamesByPlayer⟩,
    ?_, ?_, ?_, ?_, ?_, ?_, ?_, ?_, ?_, ?_, ⟨?_, ?_⟩, ⟨?_, ?_⟩,
    ⟨?_, ?_⟩, ⟨?_, ?_⟩⟩
  · simp only [startGame]
    rw [if_neg hc, if_neg (not_not_intro hp), if_neg (by simp [hns]), if_neg ho]
  · simp
  · simp [U32MOD]
  · simp [U32MOD]
  · simp [U32MOD]
  · simp [U32MOD]
  · simp
  · simp
  · simp
  · simp
  · simp [allowTo, FHE.allow, FHE.allowThis, FHE.asEuint32, hc]
  · simp [allowTo, FHE.allow, FHE.allowThis, FHE.asEuint32, hc, hne]
  · simp [allowTo, FHE.allow, FHE.allowThis, FHE.asEuint32, ho]
  · simp [allowTo, FHE.allow, FHE.allowThis, FHE.asEuint32, ho, hne']
  · simp [allowTo, FHE.allow, FHE.allowThis, FHE.asEuint32, hc, ho]
  · simp [allowTo, FHE.allow, FHE.allowThis, FHE.asEuint32, hc, ho]
  · simp [allowTo, FHE.allow, FHE.allowThis, FHE.asEuint32, hc, ho]
  · simp [allowTo, FHE.allow, FHE.allowThis, FHE.asEuint32, hc, ho]

/-- C8 witness: the theorem applied to the concrete joined state, where
alice (1) starts game 0 against bob (2). -/
theorem C8_start_spec_witness :
    ∃ s2, startGame 1 0 sJoined = .ok s2 ∧
      (s2.games 0).started = true ∧
      (s2.games 0).creatorBalance.val = 100 ∧
      (s2.games 0).opponentBalance.val = 100 ∧
      (s2.games 0).creatorScore.val = 0 ∧
      (s2.games 0).opponentScore.val = 0 ∧
      (s2.games 0).creatorBalance.allowedThis = true ∧
      (s2.games 0).opponentBalance.allowedThis = true ∧
      (s2.games 0).creatorScore.allowedThis = true ∧
      (s2.games 0).opponentScore.allowedThis = true ∧
      ((sJoined.games 0).creator ∈ (s2.games 0).creatorBalance.allowedTo ∧
        (sJoined.games 0).opponent ∉ (s2.games 0).creatorBalance.allowedTo) ∧
      ((sJoined.games 0).opponent ∈ (s2.games 0).opponentBalance.allowedTo ∧
        (sJoined.games 0).creator ∉ (s2.games 0).opponentBalance.allowedTo) ∧
      ((sJoined.games 0).creator ∈ (s2.games 0).creatorScore.allowedTo ∧
        (sJoined.games 0).opponent ∈ (s2.games 0).creatorScore.allowedTo) ∧
      ((sJoined.games 0).creator ∈ (s2.games 0).opponentScore.allowedTo ∧
        (sJoined.games 0).opponent ∈ (s2.games 0).opponentScore.allowedTo) :=
  C8_start_spec sJoined 1 0 (by decide) (by decide) (by decide) (by decide)
    (by decide)

/-- C9: `getOpenGames` returns exactly the identifiers of games with a
creator present and no opponent, in strictly ascending order; after one
creation and no joins it returns exactly that identifier, and after the
join it returns the empty sequence. -/
theorem C9_open_games :
    (∀ s i, i ∈ getOpenGames s ↔
      i < s.nextGameId ∧ (s.games i).creator ≠ 0 ∧ (s.games i).opponent = 0) ∧
    (∀ s, List.Pairwise (fun a b => a < b) (getOpenGames s)) ∧
    getOpenGames sCreated = [0] ∧
    getOpenGames sJoined = [] := by
  refine ⟨?_, ?_, by decide, by decide⟩
  · intro s i
    simp [getOpenGames, List.mem_filter, List.mem_range, and_assoc]
  · intro s
    exact (List.pairwise_lt_range _).filter _

/-- C10: in every reachable state, the per-player game list returned by
`getPlayerGames` contains no duplicate identifiers. -/
theorem C10_player_games_nodup (s : ContractState) (hr : Reachable s)
    (p : Address) : (getPlayerGames s p).Nodup :=
  (reachable_inv hr).listsNodup p

/-- C10 witness: the theorem applied to the concrete settled state for both
players, whose lists are exactly `[0]`. -/
theorem C10_player_games_nodup_witness :
    (getPlayerGames sSettled 1).Nodup ∧ getPlayerGames sSettled 1 = [0] ∧
    getPlayerGames sSettled 2 = [0] :=
  ⟨C10_player_games_nodup sSettled reach_sSettled 1, by decide, by decide⟩

end ZeroTrustArena
